/-
Verification of the Bilibili-EN-Web client against its natural-language
specification.  Each section shallowly embeds one module of the TypeScript
source (src/services/bilibili.ts, translate.ts, download.ts, settings.ts,
the watch-history store, the QR-login module and the App shell) as
executable Lean definitions, and proves the specified properties about
those definitions.

Modelling conventions, used throughout:
* JavaScript numbers that the source only ever uses as integers are
  modelled as `Int` (or `Nat` for lengths and counts).
* JavaScript 32-bit bitwise operators (`|`, `&`, `^`, `~`, `<<`, `>>>`)
  are modelled by explicit two's-complement arithmetic on `Int`
  (`toI32`, `u32` below), exactly following the ToInt32/ToUint32
  conversions of the ECMAScript standard.
* `BigInt` xor (two's complement over arbitrary-width integers) is
  modelled by `jsXor` on `Int`.
* Fallible operations return `Option`; thrown-and-caught exceptions are
  modelled by explicit outcome datatypes.
* The outcomes of network calls and other environment interactions are
  passed in explicitly as data, so every function is a pure function of
  its (code-visible) inputs.
-/
import Mathlib

namespace Bvid

/-- Two's-complement xor on unbounded integers: the semantics of the
JavaScript `BigInt` `^` operator (also of `Int.xor`): for `a = -(m+1)`
(bitwise not of `m`) the identities `~m ^ n = ~(m ^ n)` and
`~m ^ ~n = m ^ n` give the four cases. -/
def jsXor : Int → Int → Int
  | .ofNat m, .ofNat n => .ofNat (m ^^^ n)
  | .negSucc m, .ofNat n => .negSucc (m ^^^ n)
  | .ofNat m, .negSucc n => .negSucc (m ^^^ n)
  | .negSucc m, .negSucc n => .ofNat (m ^^^ n)

/-- `BVID_TABLE` from `src/services/bilibili.ts`: the 58-character BV
alphabet. -/
def BVID_TABLE : List Char :=
  "fZodR9XQDSUm21yCkr6zBqiveYah8bt4xsWpHnJE7jL5VG3guMTKNPAwcF".data

/-- `BVID_POSITIONS` from `src/services/bilibili.ts`. -/
def BVID_POSITIONS : List Nat := [11, 10, 3, 8, 4, 6]

/-- `BVID_XOR` from `src/services/bilibili.ts`. -/
def BVID_XOR : Int := 177451812

/-- `BVID_ADD` from `src/services/bilibili.ts`. -/
def BVID_ADD : Int := 8728348608

/-- `BVID_TABLE.indexOf(bvid[pos])` for one sampled position: the index in
the alphabet of the character at position `pos`, `none` when the
character is absent from the alphabet (JS `indexOf` returns `-1`).
Positions are code-point indices; every alphabet character is ASCII, and
the function is only consulted under the source's `length >= 12` guard,
so the `'\x00'` out-of-range default is never the looked-up character of
an accepted identifier. -/
def tableIndexAt (cs : List Char) (pos : Nat) : Option Nat :=
  BVID_TABLE.findIdx? (fun t => t = cs.getD pos '\x00')

/-- The accumulation loop of `decodeAidFromBvid`: walking the remaining
positions with `i` the current loop counter, add `index * 58 ^ i` for
each sampled character, failing (like the source's `return null`) as
soon as a sampled character is not in the alphabet. -/
def bvidFold (cs : List Char) : List Nat → Nat → Option Int
  | [], _ => some 0
  | pos :: rest, i =>
    match tableIndexAt cs pos with
    | none => none
    | some idx =>
      match bvidFold cs rest (i + 1) with
      | none => none
      | some r => some (r + (idx : Int) * 58 ^ i)

/-- `Number.isSafeInteger(Number(aid))` for a `BigInt` `aid`: the
`BigInt`-to-double conversion is exact for `|aid| <= 2^53 - 1`, and any
`|aid| >= 2^53` rounds (to nearest) to a double of magnitude `>= 2^53`,
which `Number.isSafeInteger` rejects; so the combined test is exactly
`|aid| <= 2^53 - 1`. -/
def isSafeInteger (v : Int) : Prop := v.natAbs ≤ 2 ^ 53 - 1

instance (v : Int) : Decidable (isSafeInteger v) := by
  unfold isSafeInteger; infer_instance

/-- `bvid.startsWith('BV')`: the first two characters are `B`, `V`. -/
def startsWithBV (bvid : String) : Prop := bvid.data.take 2 = ['B', 'V']

instance (bvid : String) : Decidable (startsWithBV bvid) := by
  unfold startsWithBV; infer_instance

/-- `decodeAidFromBvid` from `src/services/bilibili.ts` (lines 857-870).
The source's `!bvid` guard is subsumed by `startsWith`; `bvid.length`
and the sampled positions are code-point based here (identical to the
source's UTF-16 units for all identifiers whose first twelve characters
are from the Basic Multilingual Plane; surrogate halves are never in the
alphabet). -/
def decodeAidFromBvid (bvid : String) : Option Int :=
  if ¬ startsWithBV bvid then none
  else if bvid.length < 12 then none
  else
    match bvidFold bvid.data BVID_POSITIONS 0 with
    | none => none
    | some r =>
      let aid := jsXor (r - BVID_ADD) BVID_XOR
      if aid ≤ 0 then none
      else if ¬ isSafeInteger aid then none
      else some aid

/-- The decoding formula as the specification states it: read the
characters at positions `[11, 10, 3, 8, 4, 6]` in that order, take each
character's index in the 58-character alphabet, accumulate
`index_i * 58 ^ i` for `i = 0..5`, subtract `8728348608`, and xor with
`177451812`.  (The `getD 0` default never fires on an identifier every
sampled character of which is in the alphabet.) -/
def specBvidValue (bvid : String) : Int :=
  let idxs := [11, 10, 3, 8, 4, 6].map fun p =>
    ((BVID_TABLE.findIdx? (fun t => t = bvid.data.getD p '\x00')).getD 0 : Int)
  let total := (idxs.zipWith (fun idx i => idx * 58 ^ i) (List.range 6)).sum
  jsXor (total - 8728348608) 177451812

/-- The rejection conditions the claim enumerates for
`decodeAidFromBvid`: the input does not start with `BV`, is shorter
than 12 characters, has a character outside the 58-character alphabet
at one of the six sampled positions, or decodes to a raw value that is
not a positive safe integer. -/
def decodeRejects (s : String) : Prop :=
  ¬ startsWithBV s ∨ s.length < 12
    ∨ (∃ p ∈ BVID_POSITIONS, tableIndexAt s.data p = none)
    ∨ (∃ r, bvidFold s.data BVID_POSITIONS 0 = some r ∧
        (jsXor (r - BVID_ADD) BVID_XOR ≤ 0
          ∨ ¬ isSafeInteger (jsXor (r - BVID_ADD) BVID_XOR)))

end Bvid

namespace Wbi

/-- ECMAScript `ToInt32`: reduce an exact integer into the signed 32-bit
range, as performed by the JavaScript `| 0` idiom and by the 32-bit
bitwise operators. -/
def toI32 (x : Int) : Int := (x + 2 ^ 31) % 2 ^ 32 - 2 ^ 31

/-- ECMAScript `ToUint32` of an integer, as a natural number. -/
def u32 (x : Int) : Nat := (x % 2 ^ 32).toNat

/-- JavaScript `a & b` on numbers holding exact integers. -/
def jsAnd (a b : Int) : Int := toI32 (u32 a &&& u32 b)

/-- JavaScript `a | b` on numbers holding exact integers. -/
def jsOr (a b : Int) : Int := toI32 (u32 a ||| u32 b)

/-- JavaScript `a ^ b` on numbers holding exact integers. -/
def jsXor32 (a b : Int) : Int := toI32 (u32 a ^^^ u32 b)

/-- JavaScript `~a` on numbers holding exact integers. -/
def jsNot (a : Int) : Int := toI32 (-a - 1)

/-- JavaScript `a << n` (shift count already reduced mod 32). -/
def jsShl (a : Int) (n : Nat) : Int := toI32 ((u32 a) <<< n)

/-- JavaScript `a >>> n` (unsigned 32-bit right shift, nonnegative
result; shift count already reduced mod 32). -/
def jsShrU (a : Int) (n : Nat) : Int := ((u32 a) >>> n : Nat)

/-- `rotl` from the `md5` function in `src/services/bilibili.ts`:
`(x << n) | (x >>> (32 - n))`. -/
def rotl (x : Int) (n : Nat) : Int := jsOr (jsShl x n) (jsShrU x (32 - n))

/-- `ff` from `md5`: `(x & y) | (~x & z)`. -/
def ff (x y z : Int) : Int := jsOr (jsAnd x y) (jsAnd (jsNot x) z)

/-- `gg` from `md5`: `(x & z) | (y & ~z)`. -/
def gg (x y z : Int) : Int := jsOr (jsAnd x z) (jsAnd y (jsNot z))

/-- `hh` from `md5`: `x ^ y ^ z`. -/
def hh (x y z : Int) : Int := jsXor32 (jsXor32 x y) z

/-- `ii` from `md5`: `y ^ (x | ~z)`. -/
def ii (x y z : Int) : Int := jsXor32 y (jsOr x (jsNot z))

/-- One step of the `round` helper from `md5` when the schedule word is
an actual number `xv`:
`res = (a0 + func(b0,c0,d0) + xv + t) | 0; return (b0 + rotl(res, s)) | 0`.
The four-term JavaScript float addition is exact here because every
addend is below `2 ^ 53` in magnitude. -/
def md5Step (f : Int → Int → Int → Int) (a0 b0 c0 d0 xv : Int) (s : Nat)
    (t : Int) : Int :=
  toI32 (b0 + rotl (toI32 (a0 + f b0 c0 d0 + xv + t)) s)

/-- The `round` helper exactly as the source executes it: the schedule
word is read with `words[i + k]`, which yields `undefined` for an array
hole or an out-of-range index.  Then `a0 + func(...) + undefined + t`
is `NaN`, `NaN | 0` is `0`, `rotl(0, s)` is `0`, and the step returns
`(b0 + 0) | 0`. -/
def md5RoundCode (f : Int → Int → Int → Int) (a0 b0 c0 d0 : Int)
    (x : Option Int) (s : Nat) (t : Int) : Int :=
  match x with
  | none => toI32 b0
  | some xv => md5Step f a0 b0 c0 d0 xv s t

/-- Modelled from the spec: the round step of standard MD5, where a
message word that was never written is the number `0` (standard MD5
zero-padding), not `undefined`. -/
def md5RoundSpec (f : Int → Int → Int → Int) (a0 b0 c0 d0 : Int)
    (x : Option Int) (s : Nat) (t : Int) : Int :=
  md5Step f a0 b0 c0 d0 (x.getD 0) s t

/-- The `words` array of `md5` is a JavaScript sparse array: a cell is
either a number or a hole.  `holeGet` is `words[i]` (`none` encodes
`undefined`, read either from a hole or past the end). -/
def holeGet (w : List (Option Int)) (i : Nat) : Option Int :=
  match w.get? i with
  | none => none
  | some c => c

/-- JavaScript `words[i] = v`: assigning past the end extends the array
with holes up to index `i`. -/
def holeSet (w : List (Option Int)) (i : Nat) (v : Int) : List (Option Int) :=
  let w' := if i < w.length then w else w ++ List.replicate (i + 1 - w.length) none
  w'.set i (some v)

/-- JavaScript `words[i] |= v`: a hole (or out-of-range read) converts
to `0` under `ToInt32`, so the new cell is `(old | v)` with `old = 0`
for a hole. -/
def holeOrInto (w : List (Option Int)) (i : Nat) (v : Int) : List (Option Int) :=
  holeSet w i (jsOr ((holeGet w i).getD 0) v)

/-- The little-endian word-assembly loop of `md5`:
`words[i >> 2] = data[i] | data[i+1] << 8 | data[i+2] << 16 | data[i+3] << 24`
over the UTF-8 bytes, missing bytes read as `0`.  The `| 0x80 << 24`
case makes the word negative, hence the final `toI32`. -/
def packWord (b0 b1 b2 b3 : Nat) : Int :=
  toI32 ((b0 ||| b1 <<< 8 ||| b2 <<< 16 ||| b3 <<< 24 : Nat))

/-- The word-assembly loop, four bytes per word, missing trailing bytes
read as `0` (`data[i + k] || 0`). -/
def packWords : List Nat → List Int
  | [] => []
  | [b0] => [packWord b0 0 0 0]
  | [b0, b1] => [packWord b0 b1 0 0]
  | [b0, b1, b2] => [packWord b0 b1 b2 0]
  | b0 :: b1 :: b2 :: b3 :: rest => packWord b0 b1 b2 b3 :: packWords rest

/-- The `words` array of `md5` after the padding writes
`words[bitLen >> 5] |= 0x80 << (bitLen % 32)` and
`words[(((bitLen + 64) >>> 9) << 4) + 14] = bitLen` (for byte counts
far below `2 ^ 29`, `>>` / `>>>` on these nonnegative quantities are
plain truncating division).  Index `((bitLen + 64) >>> 9 << 4) + 15` --
the high word of the 64-bit message length -- is never written, so the
array always ends in a hole-adjacent cell and the final block always
reads `words[i + 15]` past the end. -/
def buildWords (bytes : List Nat) : List (Option Int) :=
  let data := (packWords bytes).map some
  let bitLen := bytes.length * 8
  let w1 := holeOrInto data (bitLen >>> 5) (toI32 ((0x80 <<< (bitLen % 32) : Nat)))
  holeSet w1 (((bitLen + 64) >>> 9) <<< 4 + 14) (bitLen : Int)

/-- The 64 steps of one MD5 block, exactly in source order, over a given
round function (`md5RoundCode` for the source, `md5RoundSpec` for the
standard algorithm), reading schedule words through `holeGet`. -/
def md5Block
    (round : (Int → Int → Int → Int) → Int → Int → Int → Int →
      Option Int → Nat → Int → Int)
    (w : List (Option Int)) (i : Nat) :
    Int × Int × Int × Int → Int × Int × Int × Int
  | (a0, b0, c0, d0) =>
    let x := fun k => holeGet w (i + k)
    let a := round ff a0 b0 c0 d0 (x 0) 7 (-680876936)
    let d := round ff d0 a b0 c0 (x 1) 12 (-389564586)
    let c := round ff c0 d a b0 (x 2) 17 606105819
    let b := round ff b0 c d a (x 3) 22 (-1044525330)
    let a := round ff a b c d (x 4) 7 (-176418897)
    let d := round ff d a b c (x 5) 12 1200080426
    let c := round ff c d a b (x 6) 17 (-1473231341)
    let b := round ff b c d a (x 7) 22 (-45705983)
    let a := round ff a b c d (x 8) 7 1770035416
    let d := round ff d a b c (x 9) 12 (-1958414417)
    let c := round ff c d a b (x 10) 17 (-42063)
    let b := round ff b c d a (x 11) 22 (-1990404162)
    let a := round ff a b c d (x 12) 7 1804603682
    let d := round ff d a b c (x 13) 12 (-40341101)
    let c := round ff c d a b (x 14) 17 (-1502002290)
    let b := round ff b c d a (x 15) 22 1236535329
    let a := round gg a b c d (x 1) 5 (-165796510)
    let d := round gg d a b c (x 6) 9 (-1069501632)
    let c := round gg c d a b (x 11) 14 643717713
    let b := round gg b c d a (x 0) 20 (-373897302)
    let a := round gg a b c d (x 5) 5 (-701558691)
    let d := round gg d a b c (x 10) 9 38016083
    let c := round gg c d a b (x 15) 14 (-660478335)
    let b := round gg b c d a (x 4) 20 (-405537848)
    let a := round gg a b c d (x 9) 5 568446438
    let d := round gg d a b c (x 14) 9 (-1019803690)
    let c := round gg c d a b (x 3) 14 (-187363961)
    let b := round gg b c d a (x 8) 20 1163531501
    let a := round gg a b c d (x 13) 5 (-1444681467)
    let d := round gg d a b c (x 2) 9 (-51403784)
    let c := round gg c d a b (x 7) 14 1735328473
    let b := round gg b c d a (x 12) 20 (-1926607734)
    let a := round hh a b c d (x 5) 4 (-378558)
    let d := round hh d a b c (x 8) 11 (-2022574463)
    let c := round hh c d a b (x 11) 16 1839030562
    let b := round hh b c d a (x 14) 23 (-35309556)
    let a := round hh a b c d (x 1) 4 (-1530992060)
    let d := round hh d a b c (x 4) 11 1272893353
    let c := round hh c d a b (x 7) 16 (-155497632)
    let b := round hh b c d a (x 10) 23 (-1094730640)
    let a := round hh a b c d (x 13) 4 681279174
    let d := round hh d a b c (x 0) 11 (-358537222)
    let c := round hh c d a b (x 3) 16 (-722521979)
    let b := round hh b c d a (x 6) 23 76029189
    let a := round hh a b c d (x 9) 4 (-640364487)
    let d := round hh d a b c (x 12) 11 (-421815835)
    let c := round hh c d a b (x 15) 16 530742520
    let b := round hh b c d a (x 2) 23 (-995338651)
    let a := round ii a b c d (x 0) 6 (-198630844)
    let d := round ii d a b c (x 7) 10 1126891415
    let c := round ii c d a b (x 14) 15 (-1416354905)
    let b := round ii b c d a (x 5) 21 (-57434055)
    let a := round ii a b c d (x 12) 6 1700485571
    let d := round ii d a b c (x 3) 10 (-1894986606)
    let c := round ii c d a b (x 10) 15 (-1051523)
    let b := round ii b c d a (x 1) 21 (-2054922799)
    let a := round ii a b c d (x 8) 6 1873313359
    let d := round ii d a b c (x 15) 10 (-30611744)
    let c := round ii c d a b (x 6) 15 (-1560198380)
    let b := round ii b c d a (x 13) 21 1309151649
    let a := round ii a b c d (x 4) 6 (-145523070)
    let d := round ii d a b c (x 11) 10 (-1120210379)
    let c := round ii c d a b (x 2) 15 718787259
    let b := round ii b c d a (x 9) 21 (-343485551)
    (toI32 (a + a0), toI32 (b + b0), toI32 (c + c0), toI32 (d + d0))

/-- The block loop `for (i = 0; i < words.length; i += 16)` of `md5`:
`ceil(words.length / 16)` iterations with `i = 16 * blockIndex`,
starting from the standard MD5 initial state. -/
def md5Main
    (round : (Int → Int → Int → Int) → Int → Int → Int → Int →
      Option Int → Nat → Int → Int)
    (w : List (Option Int)) : Int × Int × Int × Int :=
  (List.range ((w.length + 15) / 16)).foldl
    (fun st b => md5Block round w (16 * b) st)
    (1732584193, -271733879, -1732584194, 271733878)

/-- Lowercase hex digit. -/
def hexDigit (n : Nat) : Char :=
  if n < 10 then Char.ofNat (48 + n) else Char.ofNat (87 + n)

/-- `toHex` from `md5`: write the unsigned 32-bit value as 8 lowercase
hex characters, then emit its four bytes in little-endian order
(`hex.slice(6,8) + hex.slice(4,6) + hex.slice(2,4) + hex.slice(0,2)`).
`h k` is the `k`-th character of the padded big-endian hex string. -/
def toHex8 (x : Int) : List Char :=
  let n := u32 x
  let h := fun (k : Nat) => hexDigit ((n >>> (4 * (7 - k))) % 16)
  [h 6, h 7, h 4, h 5, h 2, h 3, h 0, h 1]

/-- `md5` from `src/services/bilibili.ts` (lines 219-345), as the source
executes it (array holes flow through the rounds as `undefined`), over
the UTF-8 bytes of the input. -/
def md5 (bytes : List Nat) : String :=
  let w := buildWords bytes
  let (a, b, c, d) := md5Main md5RoundCode w
  String.mk (toHex8 a ++ toHex8 b ++ toHex8 c ++ toHex8 d)

/-- Modelled from the spec: "standard MD5 over raw UTF-8 bytes,
little-endian word assembly, standard round constants, producing a
32-hex-character lowercase digest" -- identical to `md5` except that a
message word that was never written is `0`, as the standard MD5 padding
prescribes. -/
def md5Spec (bytes : List Nat) : String :=
  let w := buildWords bytes
  let (a, b, c, d) := md5Main md5RoundSpec w
  String.mk (toHex8 a ++ toHex8 b ++ toHex8 c ++ toHex8 d)

/-- UTF-8 bytes of an ASCII string (for ASCII text the UTF-8 encoding is
the code points themselves). -/
def asciiBytes (s : String) : List Nat := s.data.map Char.toNat

end Wbi

namespace Translate

/-- ASCII whitespace, the fragment of the JavaScript `\s` / `trim`
whitespace class relevant here (the Unicode space characters are
handled identically by the source and play no role in the claims). -/
def isJsSpace (c : Char) : Prop := c = ' ' ∨ c = '\t' ∨ c = '\n' ∨ c = '\r' ∨ c = '\x0b' ∨ c = '\x0c'

instance (c : Char) : Decidable (isJsSpace c) := by
  unfold isJsSpace; infer_instance

/-- JavaScript `String.prototype.trim`: strip whitespace from both ends. -/
def jsTrim (s : String) : String :=
  String.mk (((s.data.dropWhile (fun c => isJsSpace c)).reverse.dropWhile
    (fun c => isJsSpace c)).reverse)

/-- A JSON-ish JavaScript value, as far as the translation-response
handling inspects one. -/
inductive JVal
  | jstr (s : String)
  | jnum (n : Int)
  | jbool (b : Bool)
  | jarr (elems : List JVal)
  | jobj
  | jnull
  | jundefined

mutual

/-- JavaScript `Array.prototype.join` stringification of one element:
`undefined` and `null` become the empty string, other values are
converted with `ToString` (arrays recursively join with `,`; plain
objects print as `[object Object]`; non-integral numbers do not occur
in the modelled responses). -/
def joinToString : JVal → String
  | .jstr s => s
  | .jnum n => toString n
  | .jbool b => if b then "true" else "false"
  | .jarr l => joinArr l
  | .jobj => "[object Object]"
  | .jnull => ""
  | .jundefined => ""

/-- `join(',')` over the elements of a nested array. -/
def joinArr : List JVal → String
  | [] => ""
  | [v] => joinToString v
  | v :: rest => joinToString v ++ "," ++ joinArr rest

end

/-- `item[0]` for an `unknown[]`-typed `item`: the first element of an
array (`undefined` when empty), the first character of a string, and
`undefined` on anything else. -/
def itemFirst : JVal → JVal
  | .jarr l => l.getD 0 .jundefined
  | .jstr s => match s.data with
    | [] => .jundefined
    | c :: _ => .jstr (String.mk [c])
  | _ => .jundefined

/-- The outcome of `translateFetch(url)` followed by `response.json()`:
the fetch can reject, or deliver a response with an `ok` flag, a status
code, and a body that either parses to a `JVal` or makes `json()`
throw. -/
inductive FetchOutcome
  | reject
  | resp (ok : Bool) (status : Nat) (body : Option JVal)

/-- The part of `translateToEnglish` after the cache test (the `try`
block of `src/services/translate.ts`, lines 50-79): any rejection,
non-ok status or `json()` failure is caught and yields the input text;
otherwise the nested-array shape is flattened with
`data[0].map(item => item[0]).join('')` and a falsy (empty) result
also yields the input text. -/
def translateCore (env : FetchOutcome) (text : String) : String :=
  match env with
  | .reject => text
  | .resp ok _ body =>
    if ¬ ok then text
    else
      match body with
      | none => text
      | some data =>
        let translated :=
          match data with
          | .jarr (first :: _) =>
            match first with
            | .jarr items => String.join ((items.map itemFirst).map joinToString)
            | _ => ""
          | _ => ""
        if translated = "" then text else translated

/-- `translateToEnglish` from `src/services/translate.ts` (lines 45-80):
the in-memory cache is passed explicitly as an association list
(`Map.get` = value of the first matching key), the network outcome as
`env`.  An empty cached string is falsy and falls through to the
fetch, exactly as `if (cached) return cached` does. -/
def translateToEnglish (cache : List (String × String)) (env : FetchOutcome)
    (text : String) : String :=
  if text = "" ∨ jsTrim text = "" then text
  else
    match (cache.find? (fun p => p.1 = text)).map (·.2) with
    | some cached => if cached = "" then translateCore env text else cached
    | none => translateCore env text

/-- The failure cases the specification enumerates: HTTP rejection,
non-2xx status (the response's `ok` flag is false), network error, or
a response whose shape is not the expected nested-array form. -/
def failedRequest (env : FetchOutcome) : Prop :=
  match env with
  | .reject => True
  | .resp ok _ body =>
    ok = false ∨ body = none
      ∨ ∀ first rest, body = some (.jarr (first :: rest)) →
          ∀ items, first ≠ JVal.jarr items

end Translate

namespace Download

/-- `DownloadProgress.status` values. -/
inductive Status
  | pending
  | downloading
  | merging
  | completed
  | error
deriving DecidableEq

/-- One `onProgress` event of `downloadVideo`.  The numeric
`progress`/`speed` fields of mid-download events are floating-point
derived and are abstracted to the cumulative received byte count; the
constant fields of the other events are kept. -/
inductive DlEvent
  | pending
  | downloadingStart
  | downloadingChunk (receivedLength : Nat)
  | merging
  | completed (filePath : String)
  | error (msg : String)
deriving DecidableEq

/-- The stream format returned by `getVideoStreamInfo`. -/
inductive StreamFormat
  | dash
  | progressive
deriving DecidableEq

structure StreamInfo where
  format : StreamFormat
  videoUrl : String
  size : Option Nat

/-- What the environment does to one `downloadWithProgress` call:
the fetch rejects with a named error, the response is non-ok, the
response has no body, or the body delivers some chunks and then either
completes or is aborted (the abort rejection carries the name
`AbortError`). -/
inductive DwpOutcome
  | fetchThrows (name : String) (msg : String)
  | httpError (status : Nat)
  | noBody
  | chunksThenDone (chunks : List Nat)
  | chunksThenAbort (chunks : List Nat)

/-- A thrown JavaScript error, by name and message. -/
structure JsError where
  name : String
  msg : String
deriving DecidableEq

/-- The cumulative byte counts reported to `onProgress`, one per chunk:
`receivedLength += value.length` before each report. -/
def chunkReports (chunks : List Nat) : List Nat :=
  (List.range chunks.length).map (fun i => ((chunks.take (i + 1)).foldl (· + ·) 0))

/-- `downloadWithProgress` from `src/services/download.ts` (lines
156-216): returns the list of per-chunk progress reports plus either a
thrown error, `none` (the `AbortError` catch: "Download cancelled"),
or the assembled blob (modelled by its chunk list). -/
def downloadWithProgress (outcome : DwpOutcome) :
    List Nat × Except JsError (Option (List Nat)) :=
  match outcome with
  | .fetchThrows name msg =>
    if name = "AbortError" then ([], .ok none) else ([], .error ⟨name, msg⟩)
  | .httpError status => ([], .error ⟨"Error", "HTTP " ++ toString status⟩)
  | .noBody => ([], .error ⟨"Error", "No response body"⟩)
  | .chunksThenDone chunks => (chunkReports chunks, .ok (some chunks))
  | .chunksThenAbort chunks => (chunkReports chunks, .ok none)

/-- Characters removed by the filename sanitiser's first `replace`. -/
def isBadFileChar (c : Char) : Prop :=
  c = '<' ∨ c = '>' ∨ c = ':' ∨ c = '"' ∨ c = '/' ∨ c = '\\' ∨ c = '|' ∨ c = '?' ∨ c = '*'

instance (c : Char) : Decidable (isBadFileChar c) := by
  unfold isBadFileChar; infer_instance

/-- `replace(/\s+/g, ' ')`: collapse every whitespace run to a single
space.  The flag records whether the previous character was part of a
whitespace run already replaced. -/
def collapseWs : Bool → List Char → List Char
  | _, [] => []
  | prevWs, c :: rest =>
    if Translate.isJsSpace c then
      if prevWs then collapseWs true rest else ' ' :: collapseWs true rest
    else c :: collapseWs false rest

/-- The filename-sanitising chain of `downloadVideo`:
`.replace(/[<>:"\/\\|?*]/g, '').replace(/\s+/g, ' ').trim().slice(0, 100)`. -/
def sanitizeTitle (s : String) : String :=
  String.mk ((Translate.jsTrim (String.mk
    (collapseWs false (s.data.filter (fun c => ¬ isBadFileChar c))))).data.take 100)

/-- `(video.titleEn || video.title)`: an absent or empty `titleEn` is
falsy and falls back to `title`. -/
def effectiveTitle (titleEn : Option String) (title : String) : String :=
  match titleEn with
  | some t => if t = "" then title else t
  | none => title

/-- The chosen file name: `${title} [${bvid}].mp4`. -/
def chosenFileName (titleEn : Option String) (title bvid : String) : String :=
  sanitizeTitle (effectiveTitle titleEn title) ++ " [" ++ bvid ++ "].mp4"

/-- The environment of one `downloadVideo` call: what
`getVideoStreamInfo` resolves to and what the byte-stream fetch does. -/
structure DownloadEnv where
  streamInfo : Option StreamInfo
  dwp : DwpOutcome

/-- `downloadVideo` from `src/services/download.ts` (lines 35-149),
as the list of `onProgress` events it emits plus its return value.
A `null` blob -- which `downloadWithProgress` produces exactly for a
user cancellation -- makes the function throw
`'Failed to download video stream'`, which the surrounding `catch`
turns into a terminal `error` event. -/
def downloadVideo (titleEn : Option String) (title bvid : String)
    (env : DownloadEnv) : List DlEvent × Option String :=
  match env.streamInfo with
  | none => ([.pending, .error "Failed to get video stream URL"], none)
  | some si =>
    if si.format = .dash then
      ([.pending,
        .error "This quality is DASH-only. Audio/video merging is not supported yet. Try a lower quality."], none)
    else
      let fileName := chosenFileName titleEn title bvid
      let (reports, res) := downloadWithProgress env.dwp
      let prefixEvents := [DlEvent.pending, DlEvent.downloadingStart]
        ++ reports.map DlEvent.downloadingChunk
      match res with
      | .error e => (prefixEvents ++ [.error e.msg], none)
      | .ok none =>
        (prefixEvents ++ [.error "Failed to download video stream"], none)
      | .ok (some _) =>
        (prefixEvents ++ [.merging, .completed fileName], some fileName)

/-- The runs the claim calls cancelled: the byte-stream download
actually started (a non-DASH stream URL was resolved) and was aborted
while being read (or the abort fired inside the stream fetch itself). -/
def cancelledRun (env : DownloadEnv) : Prop :=
  (∃ si, env.streamInfo = some si ∧ si.format ≠ .dash)
    ∧ ((∃ chunks, env.dwp = .chunksThenAbort chunks)
      ∨ (∃ m, env.dwp = .fetchThrows "AbortError" m))

end Download

namespace Settings

/-- `AppSettings` from `src/services/settings.ts`. -/
structure AppSettings where
  defaultQuality : Int
  autoplay : Bool
  translateTitles : Bool
  translateDescriptions : Bool
  translateComments : Bool
  translateChannelNames : Bool
  translateSubtitles : Bool
deriving DecidableEq

/-- `DEFAULT_SETTINGS` from `src/services/settings.ts` (lines 19-27). -/
def DEFAULT_SETTINGS : AppSettings :=
  { defaultQuality := 80
    autoplay := true
    translateTitles := true
    translateDescriptions := true
    translateComments := true
    translateChannelNames := true
    translateSubtitles := true }

/-- One `updateSetting(key, value)` call, the key/value pair made
type-correct per field. -/
inductive SettingUpdate
  | defaultQuality (v : Int)
  | autoplay (v : Bool)
  | translateTitles (v : Bool)
  | translateDescriptions (v : Bool)
  | translateComments (v : Bool)
  | translateChannelNames (v : Bool)
  | translateSubtitles (v : Bool)

/-- `updateSetting` from `src/services/settings.ts` (lines 77-85) as its
effect on the stored record: read the current settings, assign the one
field, save the whole record. -/
def updateSetting (s : AppSettings) : SettingUpdate → AppSettings
  | .defaultQuality v => { s with defaultQuality := v }
  | .autoplay v => { s with autoplay := v }
  | .translateTitles v => { s with translateTitles := v }
  | .translateDescriptions v => { s with translateDescriptions := v }
  | .translateComments v => { s with translateComments := v }
  | .translateChannelNames v => { s with translateChannelNames := v }
  | .translateSubtitles v => { s with translateSubtitles := v }

/-- `resetSettings()` as its effect on the stored record:
`saveSettings(DEFAULT_SETTINGS)`. -/
def resetSettings : AppSettings := DEFAULT_SETTINGS

end Settings

namespace History

/-- `MAX_HISTORY_ITEMS` from the watch-history store. -/
def MAX_HISTORY_ITEMS : Nat := 100

/-- A stored `WatchHistoryItem`, identified by its video's `bvid`; the
`stamp` field stands for the freshly constructed payload
(`watchedAt: Date.now()`, progress, duration), which the list logic
never inspects. -/
structure Item where
  bvid : String
  stamp : Nat
deriving DecidableEq

/-- The list transformation of `addToHistory` (identical in the
localStorage and Tauri-store branches): drop every entry with the
video's `bvid`, unshift a fresh entry, keep the first 100. -/
def addToHistory (bvid : String) (stamp : Nat) (history : List Item) :
    List Item :=
  let filtered := history.filter (fun it => it.bvid ≠ bvid)
  (⟨bvid, stamp⟩ :: filtered).take MAX_HISTORY_ITEMS

/-- At most one entry per `bvid`. -/
def uniqueKeys (l : List Item) : Prop := (l.map (·.bvid)).Nodup

instance (l : List Item) : Decidable (uniqueKeys l) := by
  unfold uniqueKeys; infer_instance

end History

namespace Auth

/-- `searchParams.get(k)` over the parsed query of the redirect URL:
the (already percent-decoded) value of the first parameter named `k`,
`null` when absent. -/
def searchParamGet (params : List (String × String)) (k : String) :
    Option String :=
  (params.find? (fun p => p.1 = k)).map (·.2)

/-- One `if (value) cookieParts.push(`name=value`)` step of
`extractCookiesFromUrl`: an absent parameter or an empty (falsy) value
pushes nothing. -/
def pushCookie (params : List (String × String)) (acc : List String)
    (name : String) : List String :=
  match searchParamGet params name with
  | some v => if v = "" then acc else acc ++ [name ++ "=" ++ v]
  | none => acc

/-- `cookieParts.join('; ')`. -/
def joinSemicolon : List String → String
  | [] => ""
  | [x] => x
  | x :: rest => x ++ "; " ++ joinSemicolon rest

/-- `extractCookiesFromUrl` from the QR-login module (part_008, lines
177-217), over the parsed query parameters of the redirect URL: collect
the four auth cookies in fixed order and join them with `; `; an empty
collection yields `null`. -/
def extractCookiesFromUrl (params : List (String × String)) : Option String :=
  let cookieParts := pushCookie params (pushCookie params (pushCookie params
    (pushCookie params [] "DedeUserID") "DedeUserID__ckMd5") "SESSDATA") "bili_jct"
  if cookieParts ≠ [] then some (joinSemicolon cookieParts) else none

/-- The `key=value` pair contributed by one parameter name: nothing
when the parameter is absent or its value is empty. -/
def cookiePiece (params : List (String × String)) (name : String) :
    List String :=
  match searchParamGet params name with
  | some v => if v = "" then [] else [name ++ "=" ++ v]
  | none => []

/-- Modelled from the spec, as amended by the counterexample: the
`key=value` pairs for whichever of the four auth parameters are present
with a non-empty value, in the fixed relative order. -/
def specCookieParts (params : List (String × String)) : List String :=
  cookiePiece params "DedeUserID" ++ cookiePiece params "DedeUserID__ckMd5"
    ++ cookiePiece params "SESSDATA" ++ cookiePiece params "bili_jct"

/-- Modelled from the spec, as amended: the extracted cookie string is
exactly the present-with-non-empty-value pairs joined by `; `, `null`
when there are none. -/
def specCookieString (params : List (String × String)) : Option String :=
  match specCookieParts params with
  | [] => none
  | parts => some (joinSemicolon parts)

/-- `getStatusMessage` from the QR-login module; `none` is the
`undefined` status code of a payload without a numeric `code`. -/
def getStatusMessage (c : Option Int) : String :=
  if c = some 86038 then "QR code expired"
  else if c = some 86090 then "Scanned - please confirm on your phone"
  else if c = some 86101 then "Waiting for scan..."
  else "Unknown status"

/-- The outcome of the poll request as `checkQRCodeStatus` inspects it:
`parseAuthResponse` (or the fetch) threw, or it delivered a JSON object
with an outer `code`, an optional `message`, and a `data` payload with
an optional inner `code` and an optional redirect URL (given by its
parsed query parameters). -/
inductive PollOutcome
  | throws (msg : String)
  | parsed (code : Int) (message : Option String) (dataCode : Option Int)
      (dataUrl : Option (List (String × String)))

/-- The result record of `checkQRCodeStatus`; `code = none` models the
`undefined` that flows into the record when the payload has no inner
code. -/
structure QRStatus where
  code : Option Int
  message : String
  cookies : Option String
deriving DecidableEq

/-- `String(data.message || 'Login error')`: a missing or empty message
is falsy. -/
def messageOrDefault (m : Option String) : String :=
  match m with
  | some s => if s = "" then "Login error" else s
  | none => "Login error"

/-- `checkQRCodeStatus` from the QR-login module (part_008, lines
132-175).  `payload?.url` being absent makes `new URL(undefined)` throw
inside `extractCookiesFromUrl`, whose catch returns `null`; a present
URL is modelled by its parsed query parameters.  The `saveCookies` /
`setCookies` side effects do not alter the returned record. -/
def checkQRCodeStatus (env : PollOutcome) : QRStatus :=
  match env with
  | .throws m => ⟨some (-1), m, none⟩
  | .parsed code message dataCode dataUrl =>
    if code ≠ 0 then ⟨some code, messageOrDefault message, none⟩
    else if dataCode = some 0 then
      let cookies := match dataUrl with
        | some ps => extractCookiesFromUrl ps
        | none => none
      ⟨some 0, "Login successful", cookies⟩
    else ⟨dataCode, getStatusMessage dataCode, none⟩

end Auth

namespace App

/-- `FEED_PAGE_SIZE` from `src/App.tsx`. -/
def FEED_PAGE_SIZE : Nat := 20

/-- The fields of a feed result that `resolveHasMore` inspects.  The
videos themselves are irrelevant to the pagination decision, so the
list elements are erased. -/
structure FeedResult where
  videos : List Unit
  pageSize : Option Nat
  total : Option Int
  hasMore : Option Bool

/-- `resolveHasMore` from `src/App.tsx` (lines 316-325): an explicit
boolean `hasMore` wins; otherwise a known positive `total` decides by
`pageNum * pageSize < total`; otherwise a full page signals more. -/
def resolveHasMore (pageNum : Nat) (result : FeedResult) : Bool :=
  match result.hasMore with
  | some b => b
  | none =>
    let pageSize := result.pageSize.getD FEED_PAGE_SIZE
    match result.total with
    | some total =>
      if 0 < total then decide ((pageNum : Int) * pageSize < total)
      else decide (result.videos.length = pageSize)
    | none => decide (result.videos.length = pageSize)

end App

namespace Comments

/-- The `page` object of a comments response (`pageInfo`), with its
optional numeric `count` and `acount` fields. -/
structure PageInfo where
  count : Option Int
  acount : Option Int

/-- The `cursor` object of a comments response. -/
structure CursorInfo where
  is_end : Option Bool
  all_count : Option Int
  count : Option Int

/-- A successfully parsed (`code === 0`) comments response, as
`getVideoComments` inspects it: the reply arrays (elements erased --
only their lengths matter to pagination), the `page` object from the
payload or from the legacy `reply` container, and the `cursor`
object. -/
structure CommentsData where
  replies : Option (List Unit)
  replyReplies : Option (List Unit)
  topReplies : Option (List Unit)
  top : Option (List Unit)
  page : Option PageInfo
  replyPage : Option PageInfo
  cursor : Option CursorInfo

/-- `(dataPayload?.page || replyContainer?.page)`: an object is truthy,
so the payload's own `page` wins when present. -/
def pageInfoOf (d : CommentsData) : Option PageInfo :=
  match d.page with
  | some p => some p
  | none => d.replyPage

/-- The `apiTotal` chain of `getVideoComments` (lines 1066-1069):
`pageInfo.count`, else `pageInfo.acount`, else `cursor.all_count`,
else `cursor.count`, else `0`. -/
def apiTotal (d : CommentsData) : Int :=
  match (pageInfoOf d).bind (·.count) with
  | some n => n
  | none =>
    match (pageInfoOf d).bind (·.acount) with
    | some n => n
    | none =>
      match d.cursor.bind (·.all_count) with
      | some n => n
      | none =>
        match d.cursor.bind (·.count) with
        | some n => n
        | none => 0

/-- `regularReplies`: `dataPayload.replies` when it is an array, else
`reply.replies` when that is an array, else `[]`. -/
def regularReplies (d : CommentsData) : List Unit :=
  match d.replies with
  | some l => l
  | none =>
    match d.replyReplies with
    | some l => l
    | none => []

/-- `totalPages = apiTotal > 0 ? Math.ceil(apiTotal / pageSize) : 0`
(exact for the integral totals the endpoint returns). -/
def totalPages (d : CommentsData) (pageSize : Nat) : Int :=
  if 0 < apiTotal d then (((apiTotal d).toNat + pageSize - 1) / pageSize : Nat)
  else 0

/-- `cursorHasMore`: the negation of the cursor's `is_end` flag when
that flag is a boolean, else `undefined`. -/
def cursorHasMore (d : CommentsData) : Option Bool :=
  (d.cursor.bind (·.is_end)).map (fun b => !b)

/-- The returned `hasMore` of `getVideoComments` (lines 1067-1070):
the cursor flag when present, otherwise
`regularReplies.length > 0 && pageNum < totalPages`. -/
def commentsHasMore (d : CommentsData) (pageNum pageSize : Nat) : Bool :=
  match cursorHasMore d with
  | some b => b
  | none =>
    decide (0 < (regularReplies d).length)
      && decide ((pageNum : Int) < totalPages d pageSize)

/-- Modelled from the spec: `ceil(total/pageSize)`, stated over the
nonnegative totals the endpoint reports. -/
def specCeilPages (total : Int) (pageSize : Nat) : Int :=
  ((total.toNat + pageSize - 1) / pageSize : Nat)

/-- Modelled from the spec: the fallback the specification states for
the comments `hasMore` when no end-of-thread cursor flag is present:
`page < ceil(total/pageSize)`. -/
def specFallbackHasMore (total : Int) (pageNum pageSize : Nat) : Bool :=
  decide ((pageNum : Int) < specCeilPages total pageSize)

end Comments

namespace Bvid

theorem bvidFold_sum (cs : List Char) :
    ∀ (ps : List Nat) (i : Nat) (r : Int), bvidFold cs ps i = some r →
      r = (ps.zipWith (fun p j => (((tableIndexAt cs p).getD 0 : Nat) : Int) * 58 ^ j)
        (List.range' i ps.length)).sum := by
  intro ps
  induction ps with
  | nil =>
    intro i r h
    simp only [bvidFold, Option.some.injEq] at h
    simp [← h]
  | cons p rest ih =>
    intro i r h
    simp only [bvidFold] at h
    cases e : tableIndexAt cs p with
    | none => rw [e] at h; cases h
    | some idx =>
      rw [e] at h
      cases e2 : bvidFold cs rest (i + 1) with
      | none => rw [e2] at h; cases h
      | some r' =>
        rw [e2] at h
        simp only [Option.some.injEq] at h
        have hr' := ih (i + 1) r' e2
        simp only [List.length_cons, List.range'_succ, List.zipWith_cons_cons,
          List.sum_cons, e, Option.getD_some]
        omega

theorem bvidFold_eq_none_iff (cs : List Char) :
    ∀ (ps : List Nat) (i : Nat), bvidFold cs ps i = none ↔
      ∃ p ∈ ps, tableIndexAt cs p = none := by
  intro ps
  induction ps with
  | nil => intro i; simp [bvidFold]
  | cons p rest ih =>
    intro i
    simp only [bvidFold]
    cases e : tableIndexAt cs p with
    | none => simp [e]
    | some idx =>
      cases e2 : bvidFold cs rest (i + 1) with
      | none =>
        simp only [List.mem_cons]
        constructor
        · intro _
          obtain ⟨q, hq, hqn⟩ := (ih (i + 1)).mp e2
          exact ⟨q, Or.inr hq, hqn⟩
        · intro _; trivial
      | some r' =>
        simp only [List.mem_cons]
        constructor
        · intro h; cases h
        · rintro ⟨q, hq | hq, hqn⟩
          · rw [hq, e] at hqn; cases hqn
          · have := (ih (i + 1)).mpr ⟨q, hq, hqn⟩
            rw [this] at e2; cases e2

/-- Claim C1: for every 12-character BV identifier accepted by the
decoder, the decoded numeric ID equals the specification's formula:
read the characters at positions `[11, 10, 3, 8, 4, 6]` in that order,
take each character's index in the 58-character alphabet, accumulate
`index_i * 58 ^ i` for `i = 0..5` exactly, subtract `8728348608`, and
xor with `177451812`. -/
theorem decodeAid_matches_spec_formula (bvid : String) (v : Int)
    (_hlen : bvid.length = 12)
    (hdec : decodeAidFromBvid bvid = some v) :
    v = specBvidValue bvid := by
  unfold decodeAidFromBvid at hdec
  split at hdec
  · cases hdec
  · split at hdec
    · cases hdec
    · cases efold : bvidFold bvid.data BVID_POSITIONS 0 with
      | none => rw [efold] at hdec; cases hdec
      | some r =>
        rw [efold] at hdec
        simp only at hdec
        split at hdec
        · cases hdec
        · split at hdec
          · cases hdec
          · simp only [Option.some.injEq] at hdec
            subst hdec
            have hsum := bvidFold_sum bvid.data BVID_POSITIONS 0 r efold
            simp only [BVID_POSITIONS] at hsum
            have hrange' :
                List.range' 0 ([11, 10, 3, 8, 4, 6] : List Nat).length
                  = [0, 1, 2, 3, 4, 5] := rfl
            rw [hrange'] at hsum
            simp only [List.zipWith_cons_cons, List.zipWith_nil_right,
              List.zipWith_nil_left, List.sum_cons, List.sum_nil,
              tableIndexAt] at hsum
            unfold specBvidValue
            have hrange : List.range 6 = [0, 1, 2, 3, 4, 5] := rfl
            rw [hrange]
            simp only [List.map_cons, List.map_nil, List.zipWith_cons_cons,
              List.zipWith_nil_right, List.zipWith_nil_left, List.sum_cons,
              List.sum_nil]
            rw [show BVID_ADD = 8728348608 from rfl,
              show BVID_XOR = 177451812 from rfl]
            congr 1
            rw [hsum]

theorem decodeAid_matches_spec_formula_witness :
    ("BV17x411w7KC" : String).length = 12
      ∧ Bvid.decodeAidFromBvid "BV17x411w7KC" = some 170001
      ∧ (170001 : Int) = Bvid.specBvidValue "BV17x411w7KC" :=
  ⟨by decide, by decide,
    decodeAid_matches_spec_formula "BV17x411w7KC" 170001 (by decide) (by decide)⟩

/-- Claim C10: `decodeAidFromBvid` is total and never yields an invalid
ID: it returns `none` exactly when the input does not start with `BV`,
is shorter than 12 characters, has a character outside the alphabet at
one of the six sampled positions, or decodes to a raw value that is not
a positive safe integer; any returned value is a positive safe
integer. -/
theorem decodeAid_total_safety (s : String) :
    (decodeAidFromBvid s = none ↔ decodeRejects s)
      ∧ ∀ v, decodeAidFromBvid s = some v → 0 < v ∧ isSafeInteger v := by
  unfold decodeAidFromBvid
  by_cases h1 : startsWithBV s
  · rw [if_neg (not_not_intro h1)]
    by_cases h2 : s.length < 12
    · rw [if_pos h2]
      exact ⟨⟨fun _ => Or.inr (Or.inl h2), fun _ => rfl⟩,
        fun v hv => by cases hv⟩
    · rw [if_neg h2]
      cases efold : bvidFold s.data BVID_POSITIONS 0 with
      | none =>
        exact ⟨⟨fun _ => Or.inr (Or.inr (Or.inl
            ((bvidFold_eq_none_iff s.data BVID_POSITIONS 0).mp efold))),
          fun _ => rfl⟩, fun v hv => by cases hv⟩
      | some r =>
        simp only
        by_cases h3 : jsXor (r - BVID_ADD) BVID_XOR ≤ 0
        · rw [if_pos h3]
          exact ⟨⟨fun _ => Or.inr (Or.inr (Or.inr ⟨r, efold, Or.inl h3⟩)),
            fun _ => rfl⟩, fun v hv => by cases hv⟩
        · rw [if_neg h3]
          by_cases h4 : isSafeInteger (jsXor (r - BVID_ADD) BVID_XOR)
          · rw [if_neg (not_not_intro h4)]
            constructor
            · constructor
              · intro hv; cases hv
              · intro hrej
                unfold decodeRejects at hrej
                rcases hrej with ha | hb | hc | hd
                · exact (ha h1).elim
                · exact (h2 hb).elim
                · have := (bvidFold_eq_none_iff s.data BVID_POSITIONS 0).mpr hc
                  rw [this] at efold; cases efold
                · obtain ⟨r', hr', hbad⟩ := hd
                  rw [efold] at hr'
                  injection hr' with hre
                  subst hre
                  rcases hbad with hb1 | hb2
                  · exact (h3 hb1).elim
                  · exact (hb2 h4).elim
            · intro v hv
              injection hv with hveq
              subst hveq
              exact ⟨lt_of_not_le h3, h4⟩
          · rw [if_pos h4]
            exact ⟨⟨fun _ => Or.inr (Or.inr (Or.inr ⟨r, efold, Or.inr h4⟩)),
              fun _ => rfl⟩, fun v hv => by cases hv⟩
  · rw [if_pos h1]
    exact ⟨⟨fun _ => Or.inl h1, fun _ => rfl⟩, fun v hv => by cases hv⟩

theorem decodeAid_total_safety_witness :
    0 < (170001 : Int) ∧ Bvid.isSafeInteger 170001 :=
  (decodeAid_total_safety "BV17x411w7KC").2 170001 (by decide)

end Bvid

namespace Wbi

set_option maxRecDepth 1000000 in
/-- Claim C4 (code bug): the digest appended as `w_rid` is not the MD5
digest.  The source's `round` reads schedule words with `words[i + k]`,
and the `words` array always has holes (at minimum, the high word of
the 64-bit length, `words[... + 15]`, is never written); a hole makes
`(a0 + func(...) + undefined + t) | 0` collapse to `0` instead of
adding `0` for the missing word, so the computed digest differs from
standard MD5 on every input.  Evaluated here at the empty message and
at `"abc"`: `md5Spec` (holes read as `0`) yields the well-known MD5
digests `d41d8cd98f00b204e9800998ecf8427e` and
`900150983cd24fb0d6963f7d28e17f72`, while the source's computation
yields different strings. -/
theorem md5_differs_from_standard_md5 :
    md5 (asciiBytes "") = "2864cac2b0ec524b251e40f49d95b76b"
      ∧ md5Spec (asciiBytes "") = "d41d8cd98f00b204e9800998ecf8427e"
      ∧ md5 (asciiBytes "abc") = "f436646f7cbfecf7f1f0d9a069685118"
      ∧ md5Spec (asciiBytes "abc") = "900150983cd24fb0d6963f7d28e17f72"
      ∧ md5 (asciiBytes "") ≠ md5Spec (asciiBytes "")
      ∧ md5 (asciiBytes "abc") ≠ md5Spec (asciiBytes "abc") := by
  refine ⟨by decide, by decide, by decide, by decide, by decide, by decide⟩

end Wbi

namespace Translate

theorem translateCore_failed (env : FetchOutcome) (text : String)
    (h : failedRequest env) : translateCore env text = text := by
  unfold failedRequest at h
  unfold translateCore
  cases env with
  | reject => rfl
  | resp ok status body =>
    rcases h with hok | hbody | hshape
    · simp [hok]
    · subst hbody
      cases ok <;> simp
    · by_cases hok2 : ok = true
      · subst hok2
        cases body with
        | none => rfl
        | some data =>
          cases data with
          | jarr elems =>
            cases elems with
            | nil => rfl
            | cons first rest =>
              cases first with
              | jarr items => exact absurd rfl (hshape (JVal.jarr items) rest rfl items)
              | jstr s => rfl
              | jnum n => rfl
              | jbool b => rfl
              | jobj => rfl
              | jnull => rfl
              | jundefined => rfl
          | jstr s => rfl
          | jnum n => rfl
          | jbool b => rfl
          | jobj => rfl
          | jnull => rfl
          | jundefined => rfl
      · have hokf : ok = false := by
          cases ok
          · rfl
          · exact absurd rfl hok2
        simp [hokf]

theorem translateCore_ne_empty (env : FetchOutcome) (text : String)
    (hne : text ≠ "") : translateCore env text ≠ "" := by
  unfold translateCore
  cases env with
  | reject => exact hne
  | resp ok status body =>
    cases ok with
    | false => exact hne
    | true =>
      cases body with
      | none => exact hne
      | some data =>
        dsimp only
        split
        · exact hne
        · split
          · exact hne
          · assumption

/-- Claim C5: for every non-empty input text, if the translation
request fails in any way (HTTP rejection, non-2xx status, network
error, or a response whose shape is not the expected nested-array
form) and the text is not served from the cache, `translateToEnglish`
resolves to exactly the input; and for non-empty input it never
resolves to the empty string (with any cache and any outcome). -/
theorem translate_failure_returns_original (cache : List (String × String))
    (env : FetchOutcome) (text : String) (hne : text ≠ "") :
    (((cache.find? (fun p => p.1 = text)).map (·.2) = none
        ∨ (cache.find? (fun p => p.1 = text)).map (·.2) = some "") →
      failedRequest env → translateToEnglish cache env text = text)
    ∧ translateToEnglish cache env text ≠ "" := by
  constructor
  · intro hmiss hfail
    unfold translateToEnglish
    split
    · rfl
    · split
      · rename_i cached hc
        rcases hmiss with hm | hm
        · rw [hc] at hm; cases hm
        · rw [hc] at hm
          injection hm with hm'
          subst hm'
          simp only [if_pos rfl]
          exact translateCore_failed env text hfail
      · exact translateCore_failed env text hfail
  · unfold translateToEnglish
    split
    · exact hne
    · split
      · split
        · exact translateCore_ne_empty env text hne
        · assumption
      · exact translateCore_ne_empty env text hne

theorem translate_failure_returns_original_witness :
    Translate.translateToEnglish [] Translate.FetchOutcome.reject "hello" = "hello"
      ∧ Translate.translateToEnglish [] Translate.FetchOutcome.reject "hello" ≠ "" := by
  have h := translate_failure_returns_original [] FetchOutcome.reject "hello"
    (by decide)
  exact ⟨h.1 (Or.inl (by decide)) trivial, h.2⟩

end Translate

namespace Download

theorem getLast?_append_singleton {α : Type} (l : List α) (a : α) :
    (l ++ [a]).getLast? = some a := by
  induction l with
  | nil => rfl
  | cons x xs ih =>
    rw [List.cons_append, List.getLast?_cons]
    simpa using ih

theorem getLast?_append_pair {α : Type} (l : List α) (a b : α) :
    (l ++ [a, b]).getLast? = some b := by
  have h : l ++ [a, b] = (l ++ [a]) ++ [b] := by simp
  rw [h, getLast?_append_singleton]

/-- Claim C3, counterexample: a download aborted by `cancelDownload`
while the byte stream is being read does NOT return silently -- the
`null` blob that `downloadWithProgress` produces for the abort makes
`downloadVideo` throw, and its `catch` surfaces one further progress
event, a terminal `error` event with message
`'Failed to download video stream'`. -/
theorem download_cancel_surfaces_error_event :
    cancelledRun
      ⟨some ⟨.progressive, "https://example.com/stream.mp4", some 2000⟩,
        .chunksThenAbort [1000]⟩
    ∧ (downloadVideo none "Title" "BV1xx411c7mD"
        ⟨some ⟨.progressive, "https://example.com/stream.mp4", some 2000⟩,
          .chunksThenAbort [1000]⟩).1
      = [.pending, .downloadingStart, .downloadingChunk 1000,
          .error "Failed to download video stream"] := by
  constructor
  · exact ⟨⟨⟨.progressive, "https://example.com/stream.mp4", some 2000⟩,
      rfl, by decide⟩, Or.inl ⟨[1000], rfl⟩⟩
  · decide

/-- Claim C3 as amended: in every run with a progress callback the
terminal event is either a `completed` event carrying the chosen file
name (with the file name returned) or an `error` event carrying the
failure message (with `null` returned); and a run cancelled while the
byte stream is being read terminates with the `error` event
`'Failed to download video stream'` rather than silently. -/
theorem download_terminal_event (titleEn : Option String)
    (title bvid : String) (env : DownloadEnv) :
    ((∃ msg, (downloadVideo titleEn title bvid env).1.getLast?
          = some (.error msg)
        ∧ (downloadVideo titleEn title bvid env).2 = none)
      ∨ ((downloadVideo titleEn title bvid env).1.getLast?
            = some (.completed (chosenFileName titleEn title bvid))
          ∧ (downloadVideo titleEn title bvid env).2
            = some (chosenFileName titleEn title bvid)))
    ∧ (cancelledRun env →
        (downloadVideo titleEn title bvid env).1.getLast?
            = some (.error "Failed to download video stream")
          ∧ (downloadVideo titleEn title bvid env).2 = none) := by
  obtain ⟨si?, dwp⟩ := env
  cases si? with
  | none =>
    constructor
    · exact Or.inl ⟨"Failed to get video stream URL", rfl, rfl⟩
    · rintro ⟨⟨si, hsi, -⟩, -⟩; cases hsi
  | some si =>
    by_cases hdash : si.format = .dash
    · constructor
      · refine Or.inl
          ⟨"This quality is DASH-only. Audio/video merging is not supported yet. Try a lower quality.",
            ?_, ?_⟩ <;> · dsimp only [downloadVideo]; rw [if_pos hdash]; try rfl
      · rintro ⟨⟨si', hsi', hnd⟩, -⟩
        injection hsi' with h
        subst h
        exact absurd hdash hnd
    · have habortGoal : ∀ (chunks : List Nat),
          (downloadVideo titleEn title bvid ⟨some si, .chunksThenAbort chunks⟩).1.getLast?
              = some (.error "Failed to download video stream")
            ∧ (downloadVideo titleEn title bvid ⟨some si, .chunksThenAbort chunks⟩).2 = none := by
        intro chunks
        constructor
        · dsimp only [downloadVideo, downloadWithProgress]
          rw [if_neg hdash]
          exact getLast?_append_singleton _ _
        · dsimp only [downloadVideo, downloadWithProgress]
          rw [if_neg hdash]
      cases dwp with
      | fetchThrows name msg =>
        by_cases habort : name = "AbortError"
        · subst habort
          constructor
          · refine Or.inl ⟨"Failed to download video stream", ?_, ?_⟩ <;>
              · dsimp only [downloadVideo, downloadWithProgress]
                rw [if_neg hdash]
                try rfl
          · intro _
            constructor <;>
              · dsimp only [downloadVideo, downloadWithProgress]
                rw [if_neg hdash]
                try rfl
        · constructor
          · refine Or.inl ⟨msg, ?_, ?_⟩ <;>
              · dsimp only [downloadVideo, downloadWithProgress]
                rw [if_neg hdash, if_neg habort]
                try rfl
          · rintro ⟨-, hc | hc⟩
            · obtain ⟨chunks, hc⟩ := hc; cases hc
            · obtain ⟨m, hc⟩ := hc
              injection hc with h1 h2
              exact absurd h1 habort
      | httpError status =>
        constructor
        · refine Or.inl ⟨"HTTP " ++ toString status, ?_, ?_⟩ <;>
            · dsimp only [downloadVideo, downloadWithProgress]
              rw [if_neg hdash]
              try rfl
        · rintro ⟨-, hc | hc⟩ <;> obtain ⟨w, hc⟩ := hc <;> cases hc
      | noBody =>
        constructor
        · refine Or.inl ⟨"No response body", ?_, ?_⟩ <;>
            · dsimp only [downloadVideo, downloadWithProgress]
              rw [if_neg hdash]
              try rfl
        · rintro ⟨-, hc | hc⟩ <;> obtain ⟨w, hc⟩ := hc <;> cases hc
      | chunksThenDone chunks =>
        constructor
        · refine Or.inr ⟨?_, ?_⟩
          · dsimp only [downloadVideo, downloadWithProgress]
            rw [if_neg hdash]
            exact getLast?_append_pair _ _ _
          · dsimp only [downloadVideo, downloadWithProgress]
            rw [if_neg hdash]
        · rintro ⟨-, hc | hc⟩ <;> obtain ⟨w, hc⟩ := hc <;> cases hc
      | chunksThenAbort chunks =>
        constructor
        · exact Or.inl ⟨"Failed to download video stream", habortGoal chunks⟩
        · intro _
          exact habortGoal chunks

theorem download_terminal_event_witness :
    (downloadVideo none "Title" "BV1xx411c7mD"
        ⟨some ⟨.progressive, "https://example.com/stream.mp4", some 2000⟩,
          .chunksThenAbort [1000]⟩).1.getLast?
        = some (.error "Failed to download video stream")
      ∧ (downloadVideo none "Title" "BV1xx411c7mD"
        ⟨some ⟨.progressive, "https://example.com/stream.mp4", some 2000⟩,
          .chunksThenAbort [1000]⟩).2 = none :=
  (download_terminal_event none "Title" "BV1xx411c7mD"
      ⟨some ⟨.progressive, "https://example.com/stream.mp4", some 2000⟩,
        .chunksThenAbort [1000]⟩).2
    ⟨⟨⟨.progressive, "https://example.com/stream.mp4", some 2000⟩,
      rfl, by decide⟩, Or.inl ⟨[1000], rfl⟩⟩

end Download

namespace Comments

/-- Claim C2, counterexample: a successfully parsed response with no
end-of-thread cursor flag, a resolved total of 100 (five pages of 20)
and an empty regular-reply array on page 1: the claim's fallback
`page < ceil(total/pageSize)` is `true` (`1 < 5`), but the returned
`hasMore` is `false`, because the source additionally requires
`regularReplies.length > 0`. -/
theorem comments_hasMore_counterexample :
    cursorHasMore
        ⟨some [], none, none, none, some ⟨some 100, none⟩, none,
          some ⟨none, none, none⟩⟩ = none
      ∧ apiTotal
        ⟨some [], none, none, none, some ⟨some 100, none⟩, none,
          some ⟨none, none, none⟩⟩ = 100
      ∧ specFallbackHasMore 100 1 20 = true
      ∧ commentsHasMore
        ⟨some [], none, none, none, some ⟨some 100, none⟩, none,
          some ⟨none, none, none⟩⟩ 1 20 = false := by
  refine ⟨rfl, rfl, by decide, by decide⟩

/-- Claim C2 as amended: the returned `hasMore` equals the negation of
the response's end-of-thread cursor flag when that flag is present;
otherwise it equals `page < ceil(total/pageSize)` AND the page having
returned at least one regular reply (with `totalPages` taken as `0`
for a nonpositive resolved total). -/
theorem comments_hasMore_resolution (d : CommentsData)
    (pageNum pageSize : Nat) :
    (∀ e, d.cursor.bind (·.is_end) = some e →
        commentsHasMore d pageNum pageSize = !e)
    ∧ (d.cursor.bind (·.is_end) = none →
        commentsHasMore d pageNum pageSize
          = (decide (0 < (regularReplies d).length)
              && decide ((pageNum : Int) < totalPages d pageSize)))
    ∧ (0 < apiTotal d →
        (decide ((pageNum : Int) < totalPages d pageSize) : Bool)
          = specFallbackHasMore (apiTotal d) pageNum pageSize) := by
  refine ⟨?_, ?_, ?_⟩
  · intro e he
    unfold commentsHasMore cursorHasMore
    rw [he]
    rfl
  · intro hn
    unfold commentsHasMore cursorHasMore
    rw [hn]
    rfl
  · intro hpos
    unfold totalPages specFallbackHasMore specCeilPages
    rw [if_pos hpos]

theorem comments_hasMore_resolution_witness :
    commentsHasMore
        ⟨some [()], none, none, none, some ⟨some 100, none⟩, none,
          some ⟨some true, none, none⟩⟩ 1 20 = false
      ∧ (decide ((1 : Int) < totalPages
          ⟨some [()], none, none, none, some ⟨some 100, none⟩, none,
            some ⟨some true, none, none⟩⟩ 20) : Bool)
          = specFallbackHasMore 100 1 20 := by
  have h := comments_hasMore_resolution
    ⟨some [()], none, none, none, some ⟨some 100, none⟩, none,
      some ⟨some true, none, none⟩⟩ 1 20
  exact ⟨h.1 true rfl, h.2.2 (by decide)⟩

end Comments

namespace App

/-- Claim C6: the Application Shell's has-more resolver returns the
result's explicit `hasMore` boolean whenever one is present; when no
explicit flag is present but a positive total is known, it returns
`true` iff `page * pageSize < total`; and when neither is present, it
returns `true` iff the page returned exactly `pageSize` videos. -/
theorem resolveHasMore_spec (pageNum : Nat) (r : FeedResult) :
    (∀ b, r.hasMore = some b → resolveHasMore pageNum r = b)
    ∧ (r.hasMore = none → ∀ t, r.total = some t → 0 < t →
        (resolveHasMore pageNum r = true ↔
          (pageNum : Int) * (r.pageSize.getD FEED_PAGE_SIZE) < t))
    ∧ (r.hasMore = none → r.total = none →
        (resolveHasMore pageNum r = true ↔
          r.videos.length = r.pageSize.getD FEED_PAGE_SIZE)) := by
  refine ⟨?_, ?_, ?_⟩
  · intro b hb
    unfold resolveHasMore
    rw [hb]
  · intro hn t ht hpos
    unfold resolveHasMore
    rw [hn, ht]
    simp [if_pos hpos]
  · intro hn ht
    unfold resolveHasMore
    rw [hn, ht]
    simp

theorem resolveHasMore_spec_witness :
    resolveHasMore 1
        ⟨List.replicate 20 (), some 20, some 100, some false⟩ = false
      ∧ resolveHasMore 2 ⟨[], some 20, some 45, none⟩ = true
      ∧ resolveHasMore 2 ⟨List.replicate 20 (), none, none, none⟩ = true := by
  refine ⟨?_, ?_, ?_⟩
  · exact (resolveHasMore_spec 1
      ⟨List.replicate 20 (), some 20, some 100, some false⟩).1 false rfl
  · exact ((resolveHasMore_spec 2 ⟨[], some 20, some 45, none⟩).2.1
      rfl 45 rfl (by decide)).mpr (by decide)
  · exact ((resolveHasMore_spec 2
      ⟨List.replicate 20 (), none, none, none⟩).2.2 rfl rfl).mpr (by decide)

end App

namespace Settings

/-- Claim C9: `updateSetting(key, value)` sets field `key` to `value`
and leaves every other field of the stored record unchanged, and
`resetSettings()` rewrites the stored record to exactly the documented
defaults: `defaultQuality` 80, `autoplay` true, and all five
translation toggles true. -/
theorem updateSetting_frame_and_reset_defaults (s : AppSettings) :
    (∀ v, (updateSetting s (.defaultQuality v)).defaultQuality = v
      ∧ (updateSetting s (.defaultQuality v)).autoplay = s.autoplay
      ∧ (updateSetting s (.defaultQuality v)).translateTitles = s.translateTitles
      ∧ (updateSetting s (.defaultQuality v)).translateDescriptions = s.translateDescriptions
      ∧ (updateSetting s (.defaultQuality v)).translateComments = s.translateComments
      ∧ (updateSetting s (.defaultQuality v)).translateChannelNames = s.translateChannelNames
      ∧ (updateSetting s (.defaultQuality v)).translateSubtitles = s.translateSubtitles)
    ∧ (∀ v, (updateSetting s (.autoplay v)).autoplay = v
      ∧ (updateSetting s (.autoplay v)).defaultQuality = s.defaultQuality
      ∧ (updateSetting s (.autoplay v)).translateTitles = s.translateTitles
      ∧ (updateSetting s (.autoplay v)).translateDescriptions = s.translateDescriptions
      ∧ (updateSetting s (.autoplay v)).translateComments = s.translateComments
      ∧ (updateSetting s (.autoplay v)).translateChannelNames = s.translateChannelNames
      ∧ (updateSetting s (.autoplay v)).translateSubtitles = s.translateSubtitles)
    ∧ (∀ v, (updateSetting s (.translateTitles v)).translateTitles = v
      ∧ (updateSetting s (.translateTitles v)).defaultQuality = s.defaultQuality
      ∧ (updateSetting s (.translateTitles v)).autoplay = s.autoplay
      ∧ (updateSetting s (.translateTitles v)).translateDescriptions = s.translateDescriptions
      ∧ (updateSetting s (.translateTitles v)).translateComments = s.translateComments
      ∧ (updateSetting s (.translateTitles v)).translateChannelNames = s.translateChannelNames
      ∧ (updateSetting s (.translateTitles v)).translateSubtitles = s.translateSubtitles)
    ∧ (∀ v, (updateSetting s (.translateDescriptions v)).translateDescriptions = v
      ∧ (updateSetting s (.translateDescriptions v)).defaultQuality = s.defaultQuality
      ∧ (updateSetting s (.translateDescriptions v)).autoplay = s.autoplay
      ∧ (updateSetting s (.translateDescriptions v)).translateTitles = s.translateTitles
      ∧ (updateSetting s (.translateDescriptions v)).translateComments = s.translateComments
      ∧ (updateSetting s (.translateDescriptions v)).translateChannelNames = s.translateChannelNames
      ∧ (updateSetting s (.translateDescriptions v)).translateSubtitles = s.translateSubtitles)
    ∧ (∀ v, (updateSetting s (.translateComments v)).translateComments = v
      ∧ (updateSetting s (.translateComments v)).defaultQuality = s.defaultQuality
      ∧ (updateSetting s (.translateComments v)).autoplay = s.autoplay
      ∧ (updateSetting s (.translateComments v)).translateTitles = s.translateTitles
      ∧ (updateSetting s (.translateComments v)).translateDescriptions = s.translateDescriptions
      ∧ (updateSetting s (.translateComments v)).translateChannelNames = s.translateChannelNames
      ∧ (updateSetting s (.translateComments v)).translateSubtitles = s.translateSubtitles)
    ∧ (∀ v, (updateSetting s (.translateChannelNames v)).translateChannelNames = v
      ∧ (updateSetting s (.translateChannelNames v)).defaultQuality = s.defaultQuality
      ∧ (updateSetting s (.translateChannelNames v)).autoplay = s.autoplay
      ∧ (updateSetting s (.translateChannelNames v)).translateTitles = s.translateTitles
      ∧ (updateSetting s (.translateChannelNames v)).translateDescriptions = s.translateDescriptions
      ∧ (updateSetting s (.translateChannelNames v)).translateComments = s.translateComments
      ∧ (updateSetting s (.translateChannelNames v)).translateSubtitles = s.translateSubtitles)
    ∧ (∀ v, (updateSetting s (.translateSubtitles v)).translateSubtitles = v
      ∧ (updateSetting s (.translateSubtitles v)).defaultQuality = s.defaultQuality
      ∧ (updateSetting s (.translateSubtitles v)).autoplay = s.autoplay
      ∧ (updateSetting s (.translateSubtitles v)).translateTitles = s.translateTitles
      ∧ (updateSetting s (.translateSubtitles v)).translateDescriptions = s.translateDescriptions
      ∧ (updateSetting s (.translateSubtitles v)).translateComments = s.translateComments
      ∧ (updateSetting s (.translateSubtitles v)).translateChannelNames = s.translateChannelNames)
    ∧ (resetSettings.defaultQuality = 80
      ∧ resetSettings.autoplay = true
      ∧ resetSettings.translateTitles = true
      ∧ resetSettings.translateDescriptions = true
      ∧ resetSettings.translateComments = true
      ∧ resetSettings.translateChannelNames = true
      ∧ resetSettings.translateSubtitles = true) := by
  refine ⟨?_, ?_, ?_, ?_, ?_, ?_, ?_, ?_⟩ <;>
    first
      | exact fun v => ⟨rfl, rfl, rfl, rfl, rfl, rfl, rfl⟩
      | exact ⟨rfl, rfl, rfl, rfl, rfl, rfl, rfl⟩

end Settings

namespace History

theorem keys_filter_nodup (l : List Item) (bvid : String)
    (h : uniqueKeys l) :
    uniqueKeys (l.filter (fun it => it.bvid ≠ bvid)) := by
  unfold uniqueKeys at h ⊢
  exact List.Sublist.nodup (List.Sublist.map _ (List.filter_sublist l)) h

theorem bvid_not_mem_filter (l : List Item) (bvid : String) :
    bvid ∉ (l.filter (fun it => it.bvid ≠ bvid)).map (·.bvid) := by
  intro hmem
  obtain ⟨it, hit, hb⟩ := List.mem_map.mp hmem
  have := List.of_mem_filter hit
  simp only [decide_eq_true_eq] at this
  exact this hb

theorem addToHistory_bounded_unique (bvid : String) (stamp : Nat)
    (l : List Item) (h : uniqueKeys l) :
    (addToHistory bvid stamp l).length ≤ 100
      ∧ uniqueKeys (addToHistory bvid stamp l) := by
  constructor
  · unfold addToHistory MAX_HISTORY_ITEMS
    rw [List.length_take]
    omega
  · unfold addToHistory uniqueKeys
    rw [List.map_take]
    refine List.Nodup.sublist (List.take_sublist _ _) ?_
    rw [List.map_cons]
    exact List.nodup_cons.mpr ⟨bvid_not_mem_filter l bvid,
      keys_filter_nodup l bvid h⟩

theorem length_filter_of_unique_mem (bvid : String) :
    ∀ (l : List Item), uniqueKeys l → (∃ it ∈ l, it.bvid = bvid) →
      (l.filter (fun it => it.bvid ≠ bvid)).length + 1 = l.length := by
  intro l
  induction l with
  | nil => rintro - ⟨it, hit, -⟩; cases hit
  | cons x xs ih =>
    intro huniq hmem
    have hx_nin : x.bvid ∉ xs.map (·.bvid) :=
      (List.nodup_cons.mp huniq).1
    have hxs : uniqueKeys xs := (List.nodup_cons.mp huniq).2
    by_cases hxb : x.bvid = bvid
    · have hfx : ∀ it ∈ xs, it.bvid ≠ bvid := by
        intro it hit heq
        exact hx_nin (List.mem_map.mpr ⟨it, hit, by rw [heq, hxb]⟩)
      have hself : xs.filter (fun it => it.bvid ≠ bvid) = xs :=
        List.filter_eq_self.mpr fun it hit => by
          simpa using hfx it hit
      rw [List.filter_cons_of_neg (by simp [hxb]), hself, List.length_cons]
    · have hmem' : ∃ it ∈ xs, it.bvid = bvid := by
        obtain ⟨it, hit, hb⟩ := hmem
        rcases List.mem_cons.mp hit with h | h
        · subst h; exact absurd hb hxb
        · exact ⟨it, h, hb⟩
      have := ih hxs hmem'
      rw [List.filter_cons_of_pos (by simpa using hxb)]
      simp only [List.length_cons]
      omega

theorem foldl_addToHistory_inv (adds : List (String × Nat)) :
    ∀ start : List Item, start.length ≤ 100 → uniqueKeys start →
      (adds.foldl (fun l vs => addToHistory vs.1 vs.2 l) start).length ≤ 100
        ∧ uniqueKeys (adds.foldl (fun l vs => addToHistory vs.1 vs.2 l) start) := by
  induction adds with
  | nil => exact fun start hlen huniq => ⟨hlen, huniq⟩
  | cons a rest ih =>
    intro start hlen huniq
    rw [List.foldl_cons]
    have step := addToHistory_bounded_unique a.1 a.2 start huniq
    exact ih (addToHistory a.1 a.2 start) step.1 step.2

/-- Claim C7: starting from any stored watch-history list (at most 100
entries, at most one per `bvid`), after any sequence of `addToHistory`
operations the stored list still has at most 100 entries and at most
one entry per `bvid`; one add always puts the fresh entry at the
front, a video not yet present is inserted as the new head (the list
merely capped at 100), and re-adding a present video removes its old
entry and re-inserts a fresh one at the front without growing the
collection. -/
theorem addToHistory_invariants (start : List Item)
    (adds : List (String × Nat)) (hlen : start.length ≤ 100)
    (huniq : uniqueKeys start) :
    ((adds.foldl (fun l vs => addToHistory vs.1 vs.2 l) start).length ≤ 100
      ∧ uniqueKeys (adds.foldl (fun l vs => addToHistory vs.1 vs.2 l) start))
    ∧ (∀ (l : List Item) (bvid : String) (stamp : Nat), uniqueKeys l →
        l.length ≤ 100 →
        ((addToHistory bvid stamp l).head? = some ⟨bvid, stamp⟩
        ∧ ((∀ it ∈ l, it.bvid ≠ bvid) →
            addToHistory bvid stamp l = (⟨bvid, stamp⟩ :: l).take 100
            ∧ (l.length < 100 →
                addToHistory bvid stamp l = ⟨bvid, stamp⟩ :: l))
        ∧ ((∃ it ∈ l, it.bvid = bvid) →
            addToHistory bvid stamp l
              = ⟨bvid, stamp⟩ :: l.filter (fun it => it.bvid ≠ bvid)
            ∧ (addToHistory bvid stamp l).length = l.length))) := by
  refine ⟨foldl_addToHistory_inv adds start hlen huniq, ?_⟩
  intro l bvid stamp hu hl
  have hfilter_sub : (l.filter (fun it => it.bvid ≠ bvid)).length ≤ l.length :=
    List.length_filter_le _ _
  refine ⟨?_, ?_, ?_⟩
  · unfold addToHistory MAX_HISTORY_ITEMS
    rw [show (100 : Nat) = 99 + 1 from rfl, List.take_succ_cons,
      List.head?_cons]
  · intro hnone
    have hself : l.filter (fun it => it.bvid ≠ bvid) = l :=
      List.filter_eq_self.mpr fun it hit => by simpa using hnone it hit
    constructor
    · unfold addToHistory MAX_HISTORY_ITEMS
      rw [hself]
    · intro hlt
      unfold addToHistory MAX_HISTORY_ITEMS
      rw [hself, List.take_of_length_le (by simp; omega)]
  · intro hmem
    have hflen := length_filter_of_unique_mem bvid l hu hmem
    have htake : ((⟨bvid, stamp⟩ : Item) ::
        l.filter (fun it => it.bvid ≠ bvid)).take 100
          = ⟨bvid, stamp⟩ :: l.filter (fun it => it.bvid ≠ bvid) :=
      List.take_of_length_le (by simp only [List.length_cons]; omega)
    constructor
    · unfold addToHistory MAX_HISTORY_ITEMS
      rw [htake]
    · unfold addToHistory MAX_HISTORY_ITEMS
      rw [htake]
      simp only [List.length_cons]
      simp only [ne_eq, decide_not] at hflen ⊢
      omega

theorem addToHistory_invariants_witness :
    (([("a", 1), ("b", 2), ("a", 3)] : List (String × Nat)).foldl
        (fun l vs => addToHistory vs.1 vs.2 l) []).length ≤ 100
      ∧ uniqueKeys
        (([("a", 1), ("b", 2), ("a", 3)] : List (String × Nat)).foldl
          (fun l vs => addToHistory vs.1 vs.2 l) [])
      ∧ (addToHistory "c" 7 [⟨"x", 5⟩]).head? = some ⟨"c", 7⟩
      ∧ addToHistory "c" 7 [⟨"x", 5⟩] = [⟨"c", 7⟩, ⟨"x", 5⟩]
      ∧ addToHistory "x" 9 [⟨"x", 5⟩] = [⟨"x", 9⟩]
      ∧ (addToHistory "x" 9 [⟨"x", 5⟩]).length = 1 := by
  have hfold := addToHistory_invariants [] [("a", 1), ("b", 2), ("a", 3)]
    (by decide) (by decide)
  have hstep := hfold.2 [⟨"x", 5⟩] "c" 7 (by decide) (by decide)
  have hstep2 := hfold.2 [⟨"x", 5⟩] "x" 9 (by decide) (by decide)
  refine ⟨hfold.1.1, hfold.1.2, hstep.1, ?_, ?_, ?_⟩
  · have h := (hstep.2.1 (by decide)).2 (by decide)
    simpa using h
  · have h := (hstep2.2.2 ⟨⟨"x", 5⟩, by simp, rfl⟩).1
    simpa using h
  · have h := (hstep2.2.2 ⟨⟨"x", 5⟩, by simp, rfl⟩).2
    simpa using h

end History

namespace Auth

theorem pushCookie_eq (params : List (String × String)) (acc : List String)
    (name : String) :
    pushCookie params acc name = acc ++ cookiePiece params name := by
  unfold pushCookie cookiePiece
  cases searchParamGet params name with
  | none => simp
  | some v =>
    by_cases hv : v = "" <;> simp [hv]

theorem cookieParts_eq_specCookieParts (params : List (String × String)) :
    pushCookie params (pushCookie params (pushCookie params
        (pushCookie params [] "DedeUserID") "DedeUserID__ckMd5") "SESSDATA")
        "bili_jct"
      = specCookieParts params := by
  rw [pushCookie_eq, pushCookie_eq, pushCookie_eq, pushCookie_eq,
    specCookieParts]
  simp [List.append_assoc]

theorem append_ne_empty_left (a b : String) (ha : a ≠ "") : a ++ b ≠ "" := by
  intro h
  apply ha
  have hd := congrArg String.data h
  rw [String.data_append] at hd
  obtain ⟨h1, -⟩ := List.append_eq_nil.mp hd
  cases a
  simp_all

theorem joinSemicolon_ne_empty :
    ∀ l : List String, l ≠ [] → (∀ x ∈ l, x ≠ "") → joinSemicolon l ≠ "" := by
  intro l
  match l with
  | [] => intro h _; exact absurd rfl h
  | [x] =>
    intro _ hx
    exact hx x (by simp)
  | x :: y :: rest =>
    intro _ hx
    unfold joinSemicolon
    exact append_ne_empty_left _ _
      (append_ne_empty_left _ _ (hx x (by simp)))

theorem cookiePiece_elems_ne_empty (params : List (String × String))
    (name : String) (hname : name ≠ "") :
    ∀ x ∈ cookiePiece params name, x ≠ "" := by
  intro x hx
  unfold cookiePiece at hx
  cases hp : searchParamGet params name with
  | none => rw [hp] at hx; cases hx
  | some v =>
    rw [hp] at hx
    dsimp only at hx
    by_cases hv : v = ""
    · rw [if_pos hv] at hx; cases hx
    · rw [if_neg hv] at hx
      rcases List.mem_singleton.mp hx with rfl
      exact append_ne_empty_left _ _ (append_ne_empty_left _ _ hname)

theorem specCookieParts_elems_ne_empty (params : List (String × String)) :
    ∀ x ∈ specCookieParts params, x ≠ "" := by
  intro x hx
  unfold specCookieParts at hx
  simp only [List.append_assoc, List.mem_append] at hx
  rcases hx with h | h | h | h
  · exact cookiePiece_elems_ne_empty params "DedeUserID" (by decide) x h
  · exact cookiePiece_elems_ne_empty params "DedeUserID__ckMd5" (by decide) x h
  · exact cookiePiece_elems_ne_empty params "SESSDATA" (by decide) x h
  · exact cookiePiece_elems_ne_empty params "bili_jct" (by decide) x h

/-- Claim C8, counterexample: a redirect URL carrying `SESSDATA` as a
query parameter with an empty value.  The parameter is present
(`searchParams.get` returns `""`), but the empty string is falsy, so
`extractCookiesFromUrl` pushes nothing and returns `null`, and the
successful poll reports no cookie string -- against the claim's "the
pairs for whichever parameters are present" and "non-empty `cookies`
string whenever the redirect URL carries at least one of the four". -/
theorem qr_cookies_empty_value_dropped :
    searchParamGet [("SESSDATA", "")] "SESSDATA" = some ""
      ∧ extractCookiesFromUrl [("SESSDATA", "")] = none
      ∧ (checkQRCodeStatus
          (.parsed 0 none (some 0) (some [("SESSDATA", "")]))).cookies
        = none := by
  refine ⟨by decide, by decide, by decide⟩

/-- Claim C8 as amended: the extracted cookie string consists exactly
of the `key=value` pairs for whichever of the four auth parameters are
present with a NON-EMPTY value, joined by `; ` in the fixed relative
order (with `null` when none qualify); `checkQRCodeStatus` maps inner
status 86101/86090/86038 to the three waiting/scanned/expired messages,
and inner status 0 to "Login successful" with a non-empty cookie string
whenever at least one of the four parameters is present with a
non-empty value. -/
theorem qr_status_and_cookie_extraction (params : List (String × String))
    (m : Option String) (du : Option (List (String × String))) :
    (extractCookiesFromUrl params
        = match specCookieParts params with
          | [] => none
          | parts => some (joinSemicolon parts))
    ∧ (checkQRCodeStatus (.parsed 0 m (some 86101) du)).message
        = "Waiting for scan..."
    ∧ (checkQRCodeStatus (.parsed 0 m (some 86090) du)).message
        = "Scanned - please confirm on your phone"
    ∧ (checkQRCodeStatus (.parsed 0 m (some 86038) du)).message
        = "QR code expired"
    ∧ (checkQRCodeStatus (.parsed 0 m (some 0) (some params))).message
        = "Login successful"
    ∧ (specCookieParts params ≠ [] →
        ∃ cs, (checkQRCodeStatus
            (.parsed 0 m (some 0) (some params))).cookies = some cs
          ∧ cs ≠ "") := by
  have hparts := cookieParts_eq_specCookieParts params
  have hextract : extractCookiesFromUrl params
      = match specCookieParts params with
        | [] => none
        | parts => some (joinSemicolon parts) := by
    unfold extractCookiesFromUrl
    rw [hparts]
    cases hsp : specCookieParts params with
    | nil => simp
    | cons p rest => simp
  refine ⟨hextract, by simp [checkQRCodeStatus, getStatusMessage],
    by simp [checkQRCodeStatus, getStatusMessage],
    by simp [checkQRCodeStatus, getStatusMessage],
    by simp [checkQRCodeStatus], ?_⟩
  intro hne
  have hcookies : (checkQRCodeStatus
      (.parsed 0 m (some 0) (some params))).cookies
        = extractCookiesFromUrl params := by
    unfold checkQRCodeStatus
    simp
  rw [hcookies, hextract]
  cases hsp : specCookieParts params with
  | nil => exact absurd hsp hne
  | cons p rest =>
    refine ⟨joinSemicolon (p :: rest), rfl, ?_⟩
    refine joinSemicolon_ne_empty (p :: rest) (by simp) ?_
    intro x hx
    exact specCookieParts_elems_ne_empty params x (hsp ▸ hx)

theorem qr_status_and_cookie_extraction_witness :
    (checkQRCodeStatus (.parsed 0 none (some 0)
        (some [("DedeUserID", "12345"), ("SESSDATA", "session123"),
          ("bili_jct", "csrf")]))).cookies ≠ none := by
  obtain ⟨cs, hcs, -⟩ := (qr_status_and_cookie_extraction
      [("DedeUserID", "12345"), ("SESSDATA", "session123"),
        ("bili_jct", "csrf")] none none).2.2.2.2.2 (by decide)
  rw [hcs]
  exact Option.some_ne_none cs

end Auth
